import Mathlib

/-!
Shallow embedding of the nnabla-c-runtime function-execution engine:
the ReLU operator lifecycle (relu.c), the scalar-arithmetic helper
(utilities/arithmetic.c), the convolution dispatch stub (convolution.c)
and the sum-pooling allocation wrapper (sum_pooling.c).

Modelling conventions:
* Buffer elements are modelled as rationals.  The kernels under study
  perform no floating-point arithmetic: ReLU only compares an element
  against zero and copies it, and `calc_scalar` applies an abstract
  binary operator, so the embedding over an exact ordered field is
  faithful to the IEEE behaviour of the copied bits.
* The C heap is modelled as a total map from buffer identifiers
  (`Ptr`) and element indices to values.  Two distinct identifiers are
  distinct buffers; aliasing is identifier equality.
* `malloc` is modelled by a parameter: `true`/`some _` means the
  allocation succeeded, `false`/`none` means it returned a null
  pointer.
* A record's `local_context` field models the contents reachable from
  the C `void *local_context` pointer; `none` is the null/unset
  pointer.
-/

namespace NnablaRt

/-- A buffer identifier, standing for the base address of a malloc'd or
caller-owned flat float buffer. -/
abbrev Ptr := Nat

/-- The heap: for each buffer identifier, the value at each flat index. -/
abbrev Mem := Ptr → Nat → ℚ

/-- Write value `v` at index `i` of buffer `p`. -/
def memUpd (m : Mem) (p : Ptr) (i : Nat) (v : ℚ) : Mem :=
  fun q j => if q = p ∧ j = i then v else m q j

/-- `rt_function_error_t`: the allocation/execution status codes used by
the operator lifecycle (functions.h). -/
inductive rt_function_error_t where
  | RT_FUNCTION_ERROR_NOERROR
  | RT_FUNCTION_ERROR_MALLOC
  | RT_FUNCTION_ERROR_INVALID_NUM_OF_INPUTS
  | RT_FUNCTION_ERROR_INVALID_NUM_OF_OUTPUTS
  | RT_FUNCTION_ERROR_INVALID_SHAPE
deriving DecidableEq, Repr

export rt_function_error_t (RT_FUNCTION_ERROR_NOERROR RT_FUNCTION_ERROR_MALLOC
  RT_FUNCTION_ERROR_INVALID_NUM_OF_INPUTS RT_FUNCTION_ERROR_INVALID_NUM_OF_OUTPUTS
  RT_FUNCTION_ERROR_INVALID_SHAPE)

/-- `rt_variable_t`: a runtime variable; `shape` is its dimension list
(`rt_list_t`), `data` the base pointer of its flat buffer. -/
structure rt_variable_t where
  shape : List Nat
  data : Ptr
deriving DecidableEq, Repr

/-- `rt_function_t` minus the opaque context: the invocation record's
variable bindings.  `inputs`/`outputs` model the C pointer arrays
(indexing is total, as in C where the caller guarantees bounds). -/
structure rt_function_view_t where
  num_of_inputs : Nat
  inputs : Nat → rt_variable_t
  num_of_outputs : Nat
  outputs : Nat → rt_variable_t

/-- `rt_function_t`: the invocation record, parametrised by the type of
the operator family's local context.  `local_context = none` models a
null/unset `void *local_context`. -/
structure rt_function_t (ctx : Type) where
  num_of_inputs : Nat
  inputs : Nat → rt_variable_t
  num_of_outputs : Nat
  outputs : Nat → rt_variable_t
  local_context : Option ctx

/-- Forget the local context, giving the record data a kernel can see. -/
def rt_function_t.view {ctx : Type} (f : rt_function_t ctx) : rt_function_view_t :=
  ⟨f.num_of_inputs, f.inputs, f.num_of_outputs, f.outputs⟩

/-- Modelled from the spec: `calc_shape_size` (utilities/shape.c, not
among the provided sources) returns the product of the shape's
dimensions; the empty (scalar) shape has size 1. -/
def calc_shape_size (shape : List Nat) : Nat :=
  shape.foldl (fun acc d => acc * d) 1

/-- The sequential element loop shared by the pointwise kernels
(`exec_relu`'s loop and `calc_scalar`'s loop): for `i = 0 .. n-1` in
order, `output[i] = g(input[i])`, reading each `input[i]` at iteration
`i` (so in-place operation over one buffer is modelled faithfully). -/
def pointwise_loop (g : ℚ → ℚ) (inp out : Ptr) (m : Mem) : Nat → Mem
  | 0 => m
  | n + 1 =>
    memUpd (pointwise_loop g inp out m n) out n
      (g (pointwise_loop g inp out m n inp n))

/-- `relu_private_t` (relu.c): cached input/output pointers and element
counts. -/
structure relu_private_t where
  input : Ptr
  input_size : Nat
  output : Ptr
  output_size : Nat
deriving DecidableEq, Repr

/-- `allocate_relu_local_context` (relu.c).  `malloc_ok = false` models
`malloc` returning null.  Mirrors the source order: arity checks, then
malloc, then the context is stored in `f->local_context` and its fields
filled, and only then is the shape compatibility check made. -/
def allocate_relu_local_context (malloc_ok : Bool) (f : rt_function_t relu_private_t) :
    rt_function_t relu_private_t × rt_function_error_t :=
  if f.num_of_inputs ≠ 1 then
    (f, RT_FUNCTION_ERROR_INVALID_NUM_OF_INPUTS)
  else if f.num_of_outputs ≠ 1 then
    (f, RT_FUNCTION_ERROR_INVALID_NUM_OF_OUTPUTS)
  else if malloc_ok = false then
    (f, RT_FUNCTION_ERROR_MALLOC)
  else
    let priv : relu_private_t :=
      { input := (f.inputs 0).data
        input_size := calc_shape_size (f.inputs 0).shape
        output := (f.outputs 0).data
        output_size := calc_shape_size (f.outputs 0).shape }
    let f1 : rt_function_t relu_private_t := { f with local_context := some priv }
    if priv.input_size ≠ priv.output_size then
      (f1, RT_FUNCTION_ERROR_INVALID_SHAPE)
    else
      (f1, RT_FUNCTION_ERROR_NOERROR)

/-- The ReLU scalar map `(x > 0.0f) ? x : 0.0f` from `exec_relu`'s loop
body. -/
def relu (x : ℚ) : ℚ := if 0 < x then x else 0

/-- `exec_relu` (relu.c): reads the private context and runs the
pointwise loop `output[i] = (x > 0) ? x : 0` for `i` in
`[0, output_size)`; always returns `NOERROR`.  The record itself is
returned unchanged (the C function never writes through `f`).  The
`none` branch is outside the modelled state machine (in C it would
dereference a null context); it leaves the heap unchanged. -/
def exec_relu (f : rt_function_t relu_private_t) (m : Mem) :
    rt_function_t relu_private_t × Mem × rt_function_error_t :=
  match f.local_context with
  | some priv =>
      (f, pointwise_loop relu priv.input priv.output m priv.output_size,
        RT_FUNCTION_ERROR_NOERROR)
  | none => (f, m, RT_FUNCTION_ERROR_NOERROR)

/-- `calc_scalar` (utilities/arithmetic.c): applies the supplied binary
operator `calc_func` with scalar `value` across the whole output
buffer: `output[i] = calc_func(input[i], value)` for `i` in
`[0, calc_shape_size(f->outputs[0]->shape))`. -/
def calc_scalar {ctx : Type} (f : rt_function_t ctx) (value : ℚ)
    (calc_func : ℚ → ℚ → ℚ) (m : Mem) : Mem :=
  pointwise_loop (fun x => calc_func x value)
    (f.inputs 0).data (f.outputs 0).data m
    (calc_shape_size (f.outputs 0).shape)

/-- `convolution_private_t` (convolution.c / convolution_internal.h):
the private context holds the kernel chosen at allocation time as a
function pointer `exec`.  In C the kernel receives the record pointer;
here it receives the record's variable bindings (its geometry having
been captured into the closure at allocation time) and the heap. -/
structure convolution_private_t where
  exec : rt_function_view_t → Mem → Mem × rt_function_error_t

/-- `convolution_local_context_t`: the convolution local context; the
claims only touch its private-context pointer (the C field is named
`private`, a Lean keyword, rendered `priv`). -/
structure convolution_local_context_t where
  priv : convolution_private_t

/-- `exec_convolution` (convolution.c): a single indirect call through
the kernel pointer stored in the private context; no branching, no
shape recomputation.  The `none` branch is outside the modelled state
machine (a null-context dereference in C). -/
def exec_convolution (f : rt_function_t convolution_local_context_t) (m : Mem) :
    Mem × rt_function_error_t :=
  match f.local_context with
  | some ctx => ctx.priv.exec f.view m
  | none => (m, RT_FUNCTION_ERROR_NOERROR)

/-- `pooling_private_t`: the pooling private context.  Its geometry
fields live in pooling code that is not among the provided sources;
`raw` stands for those uninterpreted contents. -/
structure pooling_private_t where
  raw : Nat
deriving DecidableEq, Repr

/-- `sum_pooling_local_context_t` (functions.h): the sum-pooling config
context built by the loader before allocation; `priv` models the C
`private` pointer field (`none` = null). -/
structure sum_pooling_local_context_t where
  kernel : List Nat
  stride : List Nat
  ignore_border : Bool
  pad : List Nat
  priv : Option pooling_private_t
deriving DecidableEq, Repr

/-- Modelled from the spec: `allocate_pooling` (pooling.c, not among
the provided sources) validates the record and fills the private
geometry; per the spec's allocation contract, a failed private-context
memory allocation (`priv = none`, i.e. a null pointer) fails with
`MALLOC`.  The geometry computation itself is irrelevant to the claims
and is not modelled; on success the call reports `NOERROR`. -/
def allocate_pooling (_f : rt_function_view_t) (_context : sum_pooling_local_context_t)
    (priv : Option pooling_private_t) : rt_function_error_t :=
  if priv.isNone then RT_FUNCTION_ERROR_MALLOC else RT_FUNCTION_ERROR_NOERROR

/-- `allocate_sum_pooling_local_context` (sum_pooling.c).
`malloc_result` models what `malloc` returned (`none` = null).
Mirrors the source: it reads the pre-existing config context from
`f->local_context`, mallocs the private struct, calls
`allocate_pooling`, and then stores the private pointer into the
context's `private` field unconditionally — whatever `allocate_pooling`
returned — before returning `allocate_pooling`'s status.  The `none`
branch is outside the modelled state machine (in C the loader has
installed the config context before allocation is called). -/
def allocate_sum_pooling_local_context (malloc_result : Option pooling_private_t)
    (f : rt_function_t sum_pooling_local_context_t) :
    rt_function_t sum_pooling_local_context_t × rt_function_error_t :=
  match f.local_context with
  | some context =>
      let priv := malloc_result
      let ret := allocate_pooling f.view context priv
      ({ f with local_context := some { context with priv := priv } }, ret)
  | none => (f, RT_FUNCTION_ERROR_NOERROR)

/-! Concrete records and heaps used to instantiate the theorems. -/

/-- A well-formed unallocated ReLU record: one input of shape `[2]` at
buffer 0, one output of shape `[2]` at buffer 1, context unset. -/
def reluExample : rt_function_t relu_private_t :=
  { num_of_inputs := 1
    inputs := fun _ => { shape := [2], data := 0 }
    num_of_outputs := 1
    outputs := fun _ => { shape := [2], data := 1 }
    local_context := none }

/-- A ReLU record whose input has 2 elements but whose output has 3. -/
def reluShapeMismatch : rt_function_t relu_private_t :=
  { num_of_inputs := 1
    inputs := fun _ => { shape := [2], data := 0 }
    num_of_outputs := 1
    outputs := fun _ => { shape := [3], data := 1 }
    local_context := none }

/-- A ReLU record bound with 2 inputs. -/
def reluTwoInputs : rt_function_t relu_private_t :=
  { reluExample with num_of_inputs := 2 }

/-- A ReLU record bound with 2 outputs. -/
def reluTwoOutputs : rt_function_t relu_private_t :=
  { reluExample with num_of_outputs := 2 }

/-- A ReLU record in the Ready state: allocation succeeded, caching
input buffer 0 and output buffer 1, both of 2 elements. -/
def reluReady : rt_function_t relu_private_t :=
  { reluExample with
    local_context := some { input := 0, input_size := 2, output := 1, output_size := 2 } }

/-- A Ready in-place ReLU record: input and output are both buffer 0. -/
def reluInplace : rt_function_t relu_private_t :=
  { num_of_inputs := 1
    inputs := fun _ => { shape := [2], data := 0 }
    num_of_outputs := 1
    outputs := fun _ => { shape := [2], data := 0 }
    local_context := some { input := 0, input_size := 2, output := 0, output_size := 2 } }

/-- A concrete heap: buffer 0 holds `2, -3, -3, ...`; every other
buffer is all zero. -/
def memExample : Mem :=
  fun p i => if p = 0 then (if i = 0 then 2 else -3) else 0

/-- A concrete sum-pooling config context whose private pointer holds a
garbage (uninitialised) value before allocation. -/
def sumPoolCtx : sum_pooling_local_context_t :=
  { kernel := [3], stride := [2], ignore_border := true, pad := [0], priv := some ⟨7⟩ }

/-- A sum-pooling record with the loader-installed config context. -/
def sumPoolExample : rt_function_t sum_pooling_local_context_t :=
  { num_of_inputs := 1
    inputs := fun _ => { shape := [4], data := 0 }
    num_of_outputs := 1
    outputs := fun _ => { shape := [2], data := 1 }
    local_context := some sumPoolCtx }

/-- A convolution kernel strategy that leaves the heap unchanged. -/
def convIdKernel : convolution_private_t :=
  { exec := fun _ m => (m, RT_FUNCTION_ERROR_NOERROR) }

/-- A Ready convolution record holding `convIdKernel` in its private
context. -/
def convExample : rt_function_t convolution_local_context_t :=
  { num_of_inputs := 3
    inputs := fun _ => { shape := [1], data := 0 }
    num_of_outputs := 1
    outputs := fun _ => { shape := [1], data := 1 }
    local_context := some { priv := convIdKernel } }

/-! Helper lemmas about the pointwise element loop. -/

/-- Frame property of the element loop: indices outside the written
range `out × [0, n)` are untouched. -/
theorem pointwise_loop_frame (g : ℚ → ℚ) (inp out : Ptr) (m : Mem) (n : Nat)
    (q : Ptr) (j : Nat) (h : q ≠ out ∨ n ≤ j) :
    pointwise_loop g inp out m n q j = m q j := by
  induction n with
  | zero => rfl
  | succ n ih =>
    have h' : q ≠ out ∨ n ≤ j := h.imp id Nat.le_of_succ_le
    have hne : ¬(q = out ∧ j = n) := by
      rintro ⟨rfl, rfl⟩
      rcases h with hq | hj
      · exact hq rfl
      · omega
    simp only [pointwise_loop, memUpd, if_neg hne]
    exact ih h'

/-- Value property of the element loop: each written index holds `g`
applied to the corresponding element of the starting heap, also when
the loop operates in place on a single buffer. -/
theorem pointwise_loop_get (g : ℚ → ℚ) (inp out : Ptr) (m : Mem) (n : Nat)
    (i : Nat) (h : i < n) :
    pointwise_loop g inp out m n out i = g (m inp i) := by
  induction n with
  | zero => omega
  | succ n ih =>
    have hstep : pointwise_loop g inp out m (n + 1) out i =
        if out = out ∧ i = n then g (pointwise_loop g inp out m n inp n)
        else pointwise_loop g inp out m n out i := rfl
    rw [hstep]
    by_cases hi : i = n
    · have hyes : out = out ∧ i = n := ⟨rfl, hi⟩
      rw [if_pos hyes, hi, pointwise_loop_frame g inp out m n inp n (Or.inr le_rfl)]
    · have hne : ¬(out = out ∧ i = n) := fun hc => hi hc.2
      rw [if_neg hne]
      exact ih (by omega)

/-- An in-place element loop with an idempotent map is itself
idempotent on the heap. -/
theorem pointwise_loop_idem (g : ℚ → ℚ) (hg : ∀ x, g (g x) = g x)
    (p : Ptr) (m : Mem) (n : Nat) :
    pointwise_loop g p p (pointwise_loop g p p m n) n = pointwise_loop g p p m n := by
  funext q j
  by_cases hj : j < n
  · by_cases hq : q = p
    · subst hq
      rw [pointwise_loop_get g q q _ n j hj, pointwise_loop_get g q q m n j hj, hg]
    · rw [pointwise_loop_frame g p p _ n q j (Or.inl hq),
        pointwise_loop_frame g p p m n q j (Or.inl hq)]
  · rw [pointwise_loop_frame g p p _ n q j (Or.inr (by omega)),
      pointwise_loop_frame g p p m n q j (Or.inr (by omega))]

/-! Claim theorems. -/

/-- Claim C2: for a ReLU record in the Ready state, `exec_relu` writes
`output[i] = input[i]` if `input[i] > 0` and `output[i] = 0` otherwise,
for every `i` in `[0, output_size)`; in particular `relu 0 = 0`. -/
theorem exec_relu_pointwise (f : rt_function_t relu_private_t) (m : Mem)
    (priv : relu_private_t) (h : f.local_context = some priv) :
    (∀ i, i < priv.output_size →
      (exec_relu f m).2.1 priv.output i =
        if 0 < m priv.input i then m priv.input i else 0) ∧
    relu 0 = 0 := by
  constructor
  · intro i hi
    simp only [exec_relu, h]
    rw [pointwise_loop_get relu priv.input priv.output m priv.output_size i hi]
    rfl
  · rfl

/-- Claim C2 witness: on the Ready record `reluReady` over `memExample`
(buffer 0 holds `2, -3`), the output buffer receives `relu 2 = 2`. -/
theorem exec_relu_pointwise_witness :
    (exec_relu reluReady memExample).2.1 1 0 = 2 ∧ relu 0 = 0 := by
  have h := exec_relu_pointwise reluReady memExample
    ⟨0, 2, 1, 2⟩ rfl
  refine ⟨?_, h.2⟩
  have h0 := h.1 0 (by decide)
  norm_num [memExample] at h0
  exact h0

/-- Claim C3: binding a number of inputs different from 1 makes
`allocate_relu_local_context` fail with `INVALID_NUM_OF_INPUTS`, and a
number of outputs different from 1 makes it fail with
`INVALID_NUM_OF_OUTPUTS`; in both cases the record — in particular its
`local_context` — is returned unchanged, so no context is stored. -/
theorem relu_alloc_arity_check (f : rt_function_t relu_private_t) (malloc_ok : Bool) :
    (f.num_of_inputs ≠ 1 →
      allocate_relu_local_context malloc_ok f =
        (f, RT_FUNCTION_ERROR_INVALID_NUM_OF_INPUTS)) ∧
    (f.num_of_inputs = 1 → f.num_of_outputs ≠ 1 →
      allocate_relu_local_context malloc_ok f =
        (f, RT_FUNCTION_ERROR_INVALID_NUM_OF_OUTPUTS)) := by
  constructor
  · intro h
    simp [allocate_relu_local_context, h]
  · intro h1 h2
    simp [allocate_relu_local_context, h1, h2]

/-- Claim C3 witness: a ReLU record with 2 inputs fails with
`INVALID_NUM_OF_INPUTS`, one with 2 outputs fails with
`INVALID_NUM_OF_OUTPUTS`, each returned unchanged. -/
theorem relu_alloc_arity_check_witness :
    allocate_relu_local_context true reluTwoInputs =
      (reluTwoInputs, RT_FUNCTION_ERROR_INVALID_NUM_OF_INPUTS) ∧
    allocate_relu_local_context true reluTwoOutputs =
      (reluTwoOutputs, RT_FUNCTION_ERROR_INVALID_NUM_OF_OUTPUTS) :=
  ⟨(relu_alloc_arity_check reluTwoInputs true).1 (by decide),
   (relu_alloc_arity_check reluTwoOutputs true).2 (by decide) (by decide)⟩

/-- Claim C5: `relu` is idempotent (`relu (relu x) = relu x` for every
`x`), and for a Ready in-place record (input and output the same
buffer) executing `exec_relu` twice yields the same heap as executing
it once. -/
theorem relu_idempotent_and_inplace (f : rt_function_t relu_private_t) (m : Mem)
    (priv : relu_private_t) (h : f.local_context = some priv)
    (ha : priv.input = priv.output) :
    (∀ x : ℚ, relu (relu x) = relu x) ∧
    (exec_relu f (exec_relu f m).2.1).2.1 = (exec_relu f m).2.1 := by
  have hidem : ∀ x : ℚ, relu (relu x) = relu x := by
    intro x
    unfold relu
    by_cases hx : 0 < x
    · simp [hx]
    · simp [hx]
  refine ⟨hidem, ?_⟩
  simp only [exec_relu, h]
  rw [ha]
  exact pointwise_loop_idem relu hidem priv.output m priv.output_size

/-- Claim C5 witness: `relu (relu (-1)) = relu (-1)` and a double
in-place execution on `reluInplace` over `memExample` equals a single
one. -/
theorem relu_idempotent_and_inplace_witness :
    relu (relu (-1)) = relu (-1) ∧
    (exec_relu reluInplace (exec_relu reluInplace memExample).2.1).2.1 =
      (exec_relu reluInplace memExample).2.1 := by
  have h := relu_idempotent_and_inplace reluInplace memExample
    ⟨0, 2, 0, 2⟩ rfl rfl
  exact ⟨h.1 (-1), h.2⟩

/-- Claim C6: on a Ready record, `exec_relu` always returns
`RT_FUNCTION_ERROR_NOERROR`, whatever the heap contents. -/
theorem exec_relu_no_error (f : rt_function_t relu_private_t) (m : Mem)
    (priv : relu_private_t) (h : f.local_context = some priv) :
    (exec_relu f m).2.2 = RT_FUNCTION_ERROR_NOERROR := by
  simp [exec_relu, h]

/-- Claim C6 witness: the Ready record `reluReady` executes without
error on `memExample`. -/
theorem exec_relu_no_error_witness :
    (exec_relu reluReady memExample).2.2 = RT_FUNCTION_ERROR_NOERROR :=
  exec_relu_no_error reluReady memExample ⟨0, 2, 1, 2⟩ rfl

/-- Claim C7: `calc_scalar` writes
`output[i] = calc_func(input[i], value)` for every
`i < calc_shape_size(f->outputs[0]->shape)`, the supplied binary
operator acting as a strategy across the whole buffer. -/
theorem calc_scalar_pointwise {ctx : Type} (f : rt_function_t ctx) (value : ℚ)
    (calc_func : ℚ → ℚ → ℚ) (m : Mem) (i : Nat)
    (hi : i < calc_shape_size (f.outputs 0).shape) :
    calc_scalar f value calc_func m (f.outputs 0).data i =
      calc_func (m (f.inputs 0).data i) value := by
  unfold calc_scalar
  exact pointwise_loop_get (fun x => calc_func x value)
    (f.inputs 0).data (f.outputs 0).data m
    (calc_shape_size (f.outputs 0).shape) i hi

/-- Claim C7 witness: adding the scalar 5 across `reluReady`'s buffers
over `memExample` puts `2 + 5 = 7` at index 0 of the output buffer. -/
theorem calc_scalar_pointwise_witness :
    calc_scalar reluReady 5 (fun a b => a + b) memExample 1 0 = 7 := by
  have h := calc_scalar_pointwise reluReady 5 (fun a b => a + b)
    memExample 0 (by decide)
  norm_num [reluReady, reluExample, memExample] at h
  exact h

/-- Claim C8: for a Ready convolution record, `exec_convolution` is
exactly the single indirect call through the kernel pointer stored in
the private context, applied to the record. -/
theorem exec_convolution_single_indirect_call
    (f : rt_function_t convolution_local_context_t) (m : Mem)
    (ctx : convolution_local_context_t) (h : f.local_context = some ctx) :
    exec_convolution f m = ctx.priv.exec f.view m := by
  simp [exec_convolution, h]

/-- Claim C8 witness: on `convExample`, whose stored kernel leaves the
heap unchanged, `exec_convolution` returns exactly that kernel's
result. -/
theorem exec_convolution_single_indirect_call_witness :
    exec_convolution convExample memExample =
      (memExample, RT_FUNCTION_ERROR_NOERROR) := by
  have h := exec_convolution_single_indirect_call convExample memExample
    { priv := convIdKernel } rfl
  rw [h]
  rfl

/-- Claim C10: `exec_relu` on a Ready record changes nothing but the
output buffer's first `output_size` elements: the record (hence its
context and bindings) is returned unchanged, every heap cell outside
`output × [0, output_size)` keeps its value, and when the input buffer
is distinct from the output buffer the whole input buffer is
unchanged. -/
theorem exec_relu_frame (f : rt_function_t relu_private_t) (m : Mem)
    (priv : relu_private_t) (h : f.local_context = some priv) :
    (exec_relu f m).1 = f ∧
    (∀ q j, q ≠ priv.output ∨ priv.output_size ≤ j →
      (exec_relu f m).2.1 q j = m q j) ∧
    (priv.input ≠ priv.output →
      ∀ j, (exec_relu f m).2.1 priv.input j = m priv.input j) := by
  refine ⟨?_, ?_, ?_⟩
  · simp [exec_relu, h]
  · intro q j hqj
    simp only [exec_relu, h]
    exact pointwise_loop_frame relu priv.input priv.output m priv.output_size q j hqj
  · intro hio j
    simp only [exec_relu, h]
    exact pointwise_loop_frame relu priv.input priv.output m priv.output_size
      priv.input j (Or.inl hio)

/-- Claim C10 witness: on `reluReady` (input buffer 0, output buffer 1)
the input cell at index 0 is untouched by execution. -/
theorem exec_relu_frame_witness :
    (exec_relu reluReady memExample).2.1 0 0 = memExample 0 0 :=
  (exec_relu_frame reluReady memExample ⟨0, 2, 1, 2⟩ rfl).2.2 (by decide) 0

/-- Claim C1 counterexample: on a record with matching arity, a
succeeding `malloc`, but input element count 2 ≠ output element count
3, `allocate_relu_local_context` returns `INVALID_SHAPE` with the
private context already stored — the record's `local_context`, unset
before the call, is no longer unset after it. -/
theorem relu_invalid_shape_stores_context_cex :
    (allocate_relu_local_context true reluShapeMismatch).2 =
      RT_FUNCTION_ERROR_INVALID_SHAPE ∧
    reluShapeMismatch.local_context = none ∧
    (allocate_relu_local_context true reluShapeMismatch).1.local_context ≠ none := by
  decide

/-- Claim C1 (amended): an arity mismatch makes
`allocate_relu_local_context` fail before any context is stored — the
record, including its `local_context`, is returned unchanged; a shape
mismatch (input element count ≠ output element count) still fails with
`INVALID_SHAPE`, but only after the freshly allocated private context
has been stored in the record's `local_context`. -/
theorem relu_alloc_mismatch_context (f : rt_function_t relu_private_t)
    (malloc_ok : Bool) :
    (f.num_of_inputs ≠ 1 ∨ f.num_of_outputs ≠ 1 →
      (allocate_relu_local_context malloc_ok f).1 = f) ∧
    (f.num_of_inputs = 1 → f.num_of_outputs = 1 →
      calc_shape_size (f.inputs 0).shape ≠ calc_shape_size (f.outputs 0).shape →
      (allocate_relu_local_context true f).2 = RT_FUNCTION_ERROR_INVALID_SHAPE ∧
      (allocate_relu_local_context true f).1.local_context =
        some { input := (f.inputs 0).data
               input_size := calc_shape_size (f.inputs 0).shape
               output := (f.outputs 0).data
               output_size := calc_shape_size (f.outputs 0).shape }) := by
  constructor
  · intro h
    by_cases h1 : f.num_of_inputs = 1
    · have h2 : f.num_of_outputs ≠ 1 := by
        rcases h with h | h
        · exact absurd h1 h
        · exact h
      simp [allocate_relu_local_context, h1, h2]
    · simp [allocate_relu_local_context, h1]
  · intro h1 h2 hs
    constructor <;> simp [allocate_relu_local_context, h1, h2, hs]

/-- Claim C1 (amended) witness: arity mismatch on `reluTwoInputs`
leaves the record unchanged; shape mismatch on `reluShapeMismatch`
fails with `INVALID_SHAPE`. -/
theorem relu_alloc_mismatch_context_witness :
    (allocate_relu_local_context true reluTwoInputs).1 = reluTwoInputs ∧
    (allocate_relu_local_context true reluShapeMismatch).2 =
      RT_FUNCTION_ERROR_INVALID_SHAPE :=
  ⟨(relu_alloc_mismatch_context reluTwoInputs true).1 (Or.inl (by decide)),
   ((relu_alloc_mismatch_context reluShapeMismatch true).2 (by decide) (by decide)
      (by decide)).1⟩

/-- Claim C4 counterexample: with `malloc` failing, sum-pooling
allocation on `sumPoolExample` returns `MALLOC` yet stores the null
private pointer into the record's pre-existing config context — the
record is not left with no partial state stored. -/
theorem sum_pooling_malloc_stores_null_cex :
    (allocate_sum_pooling_local_context none sumPoolExample).2 =
      RT_FUNCTION_ERROR_MALLOC ∧
    (allocate_sum_pooling_local_context none sumPoolExample).1.local_context ≠
      sumPoolExample.local_context := by
  decide

/-- Claim C4 (amended): when the private-context `malloc` fails,
`allocate_relu_local_context` returns `MALLOC` with the record — in
particular its `local_context` — unchanged;
`allocate_sum_pooling_local_context` also returns `MALLOC` (through the
spec-modelled `allocate_pooling`), but it does not leave the record
untouched: the null private pointer is still stored into the
pre-existing config context's `private` field. -/
theorem malloc_failure_behavior (f : rt_function_t relu_private_t)
    (g : rt_function_t sum_pooling_local_context_t)
    (ctx : sum_pooling_local_context_t)
    (h1 : f.num_of_inputs = 1) (h2 : f.num_of_outputs = 1)
    (hg : g.local_context = some ctx) :
    allocate_relu_local_context false f = (f, RT_FUNCTION_ERROR_MALLOC) ∧
    (allocate_sum_pooling_local_context none g).2 = RT_FUNCTION_ERROR_MALLOC ∧
    (allocate_sum_pooling_local_context none g).1.local_context =
      some { ctx with priv := none } := by
  refine ⟨?_, ?_, ?_⟩
  · simp [allocate_relu_local_context, h1, h2]
  · simp [allocate_sum_pooling_local_context, hg, allocate_pooling]
  · simp [allocate_sum_pooling_local_context, hg]

/-- Claim C4 (amended) witness: instantiated on `reluExample` (record
unchanged with `MALLOC`) and `sumPoolExample` (null private pointer
stored on failure). -/
theorem malloc_failure_behavior_witness :
    allocate_relu_local_context false reluExample =
      (reluExample, RT_FUNCTION_ERROR_MALLOC) ∧
    (allocate_sum_pooling_local_context none sumPoolExample).1.local_context =
      some { sumPoolCtx with priv := none } :=
  ⟨(malloc_failure_behavior reluExample sumPoolExample sumPoolCtx rfl rfl rfl).1,
   (malloc_failure_behavior reluExample sumPoolExample sumPoolCtx rfl rfl rfl).2.2⟩

/-- Claim C9: whenever `allocate_relu_local_context` returns
`NOERROR`, the stored private context satisfies
`input_size = output_size`, with the sizes equal to the products of the
input and output variables' shape dimensions and the cached pointers
equal to the variables' data pointers; a subsequent `exec_relu` leaves
the stored context intact. -/
theorem relu_alloc_success_invariant (f : rt_function_t relu_private_t)
    (malloc_ok : Bool) (m : Mem) (priv : relu_private_t)
    (hok : (allocate_relu_local_context malloc_ok f).2 = RT_FUNCTION_ERROR_NOERROR)
    (hctx : (allocate_relu_local_context malloc_ok f).1.local_context = some priv) :
    priv.input_size = priv.output_size ∧
    priv.input_size = calc_shape_size (f.inputs 0).shape ∧
    priv.output_size = calc_shape_size (f.outputs 0).shape ∧
    priv.input = (f.inputs 0).data ∧
    priv.output = (f.outputs 0).data ∧
    (exec_relu (allocate_relu_local_context malloc_ok f).1 m).1.local_context =
      some priv := by
  have hrec : ∀ g : rt_function_t relu_private_t, (exec_relu g m).1 = g := by
    intro g
    cases hl : g.local_context <;> simp [exec_relu, hl]
  by_cases h1 : f.num_of_inputs = 1
  · by_cases h2 : f.num_of_outputs = 1
    · by_cases h3 : malloc_ok = false
      · simp [allocate_relu_local_context, h1, h2, h3] at hok
      · by_cases h4 : calc_shape_size (f.inputs 0).shape =
            calc_shape_size (f.outputs 0).shape
        · have hp : priv =
              { input := (f.inputs 0).data
                input_size := calc_shape_size (f.inputs 0).shape
                output := (f.outputs 0).data
                output_size := calc_shape_size (f.outputs 0).shape } := by
            have hc := hctx
            simp [allocate_relu_local_context, h1, h2, h3, h4] at hc
            rw [h4]
            exact hc.symm
          subst hp
          refine ⟨h4, rfl, rfl, rfl, rfl, ?_⟩
          rw [hrec]
          exact hctx
        · simp [allocate_relu_local_context, h1, h2, h3, h4] at hok
    · simp [allocate_relu_local_context, h1, h2] at hok
  · simp [allocate_relu_local_context, h1] at hok

/-- Claim C9 witness: successful allocation on `reluExample` stores the
context caching buffers 0 and 1 with both sizes 2, and execution over
`memExample` leaves it in place. -/
theorem relu_alloc_success_invariant_witness :
    (exec_relu (allocate_relu_local_context true reluExample).1
        memExample).1.local_context =
      some { input := 0, input_size := 2, output := 1, output_size := 2 } :=
  (relu_alloc_success_invariant reluExample true memExample
    { input := 0, input_size := 2, output := 1, output_size := 2 }
    (by decide) (by decide)).2.2.2.2.2

end NnablaRt
